import Mathlib

/-!
Verification of the agent orchestration core of `light_agent`:
tool registry dispatch (`light_agent/agent/tools/registry.py`), the MCP
protocol client (`lightagent/agent/mcp_client.py`), the agent control loop
(`light_agent/agent/loop.py`), and the subagent orchestrator
(`lightagent/agent/subagent.py`), shallowly embedded as executable Lean
definitions.  Python dicts are embedded as insertion-ordered association
lists, raised exceptions as the `Except.error` branch of `Except String α`,
and `async` suspension is erased (the code under study runs on one
cooperative event loop, and every property treated here is about the
sequential state transformations it performs).
-/

namespace LightAgent

/-- A JSON value, as produced by `json.loads` on a tool-argument payload. -/
inductive JVal where
  | s (v : String)
  | i (v : Int)
  | b (v : Bool)
  | arr (xs : List JVal)
  | obj (fields : List (String × JVal))
  | null

/-- Parsed tool arguments: the field/value pairs of a JSON object. -/
abbrev Args := List (String × JVal)

/-- The JSON-schema fragment used by tool parameter declarations:
string (with optional `enum`, `minLength`, `maxLength`), integer (with
optional `minimum`/`maximum`), boolean, array (optional `items` schema) and
object (`properties` plus `required`). -/
inductive Schema where
  | str (enum : List String) (minLength maxLength : Option Nat)
  | int (minimum maximum : Option Int)
  | bool
  | arr (items : Option Schema)
  | obj (properties : List (String × Schema)) (required : List String)

/-- Dotted-path join for nested validation messages (`config.key`). -/
def joinPath (p k : String) : String :=
  if p = "" then k else p ++ "." ++ k

/-- Python `fields.get(k)` on an embedded dict. -/
def lookupField (fields : List (String × JVal)) (k : String) : Option JVal :=
  match fields.find? (fun kv => kv.1 == k) with
  | some kv => some kv.2
  | none => none

/-- Modelled from the spec: `Tool.validate_params`
(`light_agent/agent/tools/base.py` is not under `src/`; only its tests are).
Per §4.1 the validator collects **all** violations — missing required field,
wrong type, out-of-range numeric/length bound, enum violation — recursively
for nested object/array schemas, reporting dotted paths such as `config.key`.
Message texts follow the repository's own tests (`tests/agents/test_tool.py`):
`missing required {path}`, `{path} should be {type}`, `{path} must be >= n`,
`{path} must be <= n`, `{path} must be one of ...`,
`{path} must be at least n chars`, `{path} must be at most n chars`. -/
def validateValue (path : String) : Schema → JVal → List String
  | .str enum minL maxL, .s v =>
      (if enum ≠ [] ∧ ¬ enum.contains v then
        [path ++ " must be one of " ++ String.intercalate ", " enum]
      else [])
      ++ (match minL with
          | some n =>
            if v.length < n then [path ++ " must be at least " ++ toString n ++ " chars"] else []
          | none => [])
      ++ (match maxL with
          | some n =>
            if v.length > n then [path ++ " must be at most " ++ toString n ++ " chars"] else []
          | none => [])
  | .str _ _ _, _ => [path ++ " should be string"]
  | .int lo hi, .i v =>
      (match lo with
       | some n => if v < n then [path ++ " must be >= " ++ toString n] else []
       | none => [])
      ++ (match hi with
          | some n => if v > n then [path ++ " must be <= " ++ toString n] else []
          | none => [])
  | .int _ _, _ => [path ++ " should be integer"]
  | .bool, .b _ => []
  | .bool, _ => [path ++ " should be boolean"]
  | .arr none, .arr _ => []
  | .arr (some s), .arr xs =>
      xs.flatMap (fun x => validateValue (path ++ "[]") s x)
  | .arr _, _ => [path ++ " should be array"]
  | .obj props req, .obj fields =>
      req.flatMap (fun r =>
        match lookupField fields r with
        | some _ => []
        | none => ["missing required " ++ joinPath path r])
      ++ props.attach.flatMap (fun ks =>
          match lookupField fields ks.1.1 with
          | some v => validateValue (joinPath path ks.1.1) ks.1.2 v
          | none => [])
  | .obj _ _, _ => [path ++ " should be object"]
termination_by s _ => sizeOf s
decreasing_by
  · simp_wf
    omega
  · simp_wf
    obtain ⟨⟨k, s⟩, hmem⟩ := ks
    have h1 := List.sizeOf_lt_of_mem hmem
    simp at h1 ⊢
    omega

/-- A registered capability (`Tool` subclass instance): name, description,
parameter schema, and the executor `execute(**params) -> str`.  An executor
that raises is embedded as `Except.error message`. -/
structure Tool where
  name : String
  description : String
  parameters : Schema
  exec : Args → Except String String

/-- `Tool.validate_params(params)`: validate the argument dict against the
tool's (object) schema, returning the collected violation messages.
Top-level fields are reported without a path prefix. -/
def Tool.validate_params (t : Tool) (params : Args) : List String :=
  validateValue "" t.parameters (.obj params)

/-- A remote tool description, as returned by an MCP session's
`list_tools()` (`{name, description, inputSchema}`). -/
structure RemoteTool where
  name : String
  description : String
  input_schema : Schema

/-- The live state behind a connected `ClientSession`: the remote tool set it
currently serves, and the remote call operation (`session.call_tool`), whose
failures are embedded as `Except.error`. -/
structure MCPSession where
  tools : List RemoteTool
  call : String → Args → Except String String

/-- `MCPClient` as used at dispatch time (`lightagent/agent/mcp_client.py`):
a server name and an optional connected session (`self.session`). -/
structure MCPClient where
  name : String
  session : Option MCPSession

/-- `MCPClient.get_tools`: `[]` when not connected, else every remote tool
under the namespaced name `{server}__{tool}`. -/
def MCPClient.get_tools (c : MCPClient) : List RemoteTool :=
  match c.session with
  | none => []
  | some s =>
      s.tools.map (fun t =>
        { name := c.name ++ "__" ++ t.name
          description := t.description
          input_schema := t.input_schema })

/-- Python `s.split("__")` on the character list, scanning greedily left to
right; `cur` holds the reversed characters of the segment being built. -/
def dunderSplitChars : List Char → List Char → List (List Char)
  | [], cur => [cur.reverse]
  | '_' :: '_' :: rest, cur => cur.reverse :: dunderSplitChars rest []
  | c :: rest, cur => dunderSplitChars rest (c :: cur)

/-- Python `s.split("__")`. -/
def dunderSplit (s : String) : List String :=
  (dunderSplitChars s.toList []).map List.asString

/-- Character-list version of Python `s.startswith(p)`. -/
def startsWithChars : List Char → List Char → Bool
  | _, [] => true
  | [], _ :: _ => false
  | c :: cs, p :: ps => c == p && startsWithChars cs ps

/-- Python `s.startswith(p)`. -/
def pyStartsWith (s p : String) : Bool :=
  startsWithChars s.toList p.toList

/-- `MCPClient.call_tool` (`mcp_client.py` lines 99-106): an error *string*
when no session is connected; otherwise the namespaced name is reduced to its
last `"__"`-separated segment (`tool_name.split("__")[-1]`) and forwarded to
the session, whose own failure propagates (`Except.error`). -/
def MCPClient.call_tool (c : MCPClient) (tool_name : String) (arguments : Args) :
    Except String String :=
  match c.session with
  | none => .ok "Error: Session not connected"
  | some s => s.call ((dunderSplit tool_name).getLastD tool_name) arguments

/-- Modelled from the spec: `len(mcp)` in
`AgentLoop._get_cached_tool_schemas` is evaluated on the `light_agent` MCP
client class, which is not under `src/`; following the spec's reading of the
cache key as a tool-count version, it is modelled as the number of remote
tools the client currently serves. -/
def MCPClient.len (c : MCPClient) : Nat :=
  match c.session with
  | none => 0
  | some s => s.tools.length

/-- The tool registry (`light_agent/agent/tools/registry.py`): the
insertion-ordered `_tools` dict plus the `mcp_clients` list. -/
structure ToolRegistry where
  tools : List (String × Tool)
  mcp_clients : List MCPClient

/-- The empty registry (`ToolRegistry.__init__`). -/
def ToolRegistry.empty : ToolRegistry :=
  { tools := [], mcp_clients := [] }

/-- Python-dict insert: overwrite in place if the key exists, else append. -/
def dictInsert {α : Type} (kvs : List (String × α)) (k : String) (v : α) :
    List (String × α) :=
  match kvs with
  | [] => [(k, v)]
  | (k', v') :: rest =>
      if k' == k then (k', v) :: rest else (k', v') :: dictInsert rest k v

/-- `ToolRegistry.register`: insert/overwrite by `tool.name`. -/
def ToolRegistry.register (r : ToolRegistry) (t : Tool) : ToolRegistry :=
  { r with tools := dictInsert r.tools t.name t }

/-- `ToolRegistry.unregister`: remove by name if present, else no-op. -/
def ToolRegistry.unregister (r : ToolRegistry) (name : String) : ToolRegistry :=
  { r with tools := r.tools.filter (fun kv => !(kv.1 == name)) }

/-- `ToolRegistry.get`: `self._tools.get(name)`. -/
def ToolRegistry.get (r : ToolRegistry) (name : String) : Option Tool :=
  match r.tools.find? (fun kv => kv.1 == name) with
  | some kv => some kv.2
  | none => none

/-- `ToolRegistry.has` / `__contains__`. -/
def ToolRegistry.has (r : ToolRegistry) (name : String) : Bool :=
  (r.get name).isSome

/-- `ToolRegistry.execute` (registry.py lines 41-65): unknown name yields a
not-found string; validation errors yield one aggregated error string; the
executor runs inside `try`, so an executor fault is converted to
`"Error executing {name}: {message}"`.  This function is total: it never
produces an `Except.error`. -/
def ToolRegistry.execute (r : ToolRegistry) (name : String) (params : Args) : String :=
  match r.get name with
  | none => "Error: Tool '" ++ name ++ "' not found"
  | some tool =>
      let errors := tool.validate_params params
      if errors ≠ [] then
        "Error: Invalid parameters for tool '" ++ name ++ "': " ++
          String.intercalate "; " errors
      else
        match tool.exec params with
        | .ok res => res
        | .error e => "Error executing " ++ name ++ ": " ++ e

/-- Whether `"__" in name` holds (Python substring test). -/
def hasDunder (name : String) : Bool :=
  (dunderSplit name).length ≥ 2

/-- The first MCP client whose `"{client.name}__"` prefixes the requested
name — the client the `for` loop in `ToolRegistry.call_tool` routes to —
or `none` when the name has no `"__"` or no client matches. -/
def ToolRegistry.routedClient (r : ToolRegistry) (name : String) : Option MCPClient :=
  if hasDunder name then
    r.mcp_clients.find? (fun c => pyStartsWith name (c.name ++ "__"))
  else
    none

/-- `ToolRegistry.call_tool` (registry.py lines 99-112): a name containing
`"__"` that matches a registered MCP client's prefix is routed to that
client's `call_tool` — whose result, including a propagating remote fault, is
returned unguarded — while everything else goes through `execute`. -/
def ToolRegistry.call_tool (r : ToolRegistry) (name : String) (arguments : Args) :
    Except String String :=
  match r.routedClient name with
  | some c => c.call_tool name arguments
  | none => .ok (r.execute name arguments)

/-- One entry of the manifest handed to the model: the
`{"type": "function", "function": {name, description, parameters}}`
wrapper is constant, so only the inner triple is represented. -/
structure FnSchema where
  name : String
  description : String
  parameters : Schema

/-- `ToolRegistry.get_definitions`: the local tools' schemas, in
registration order. -/
def ToolRegistry.get_definitions (r : ToolRegistry) : List FnSchema :=
  r.tools.map (fun kv =>
    { name := kv.2.name, description := kv.2.description, parameters := kv.2.parameters })

/-- `ToolRegistry.get_all_tool_schemas` (registry.py lines 78-97): local
definitions followed by every connected client's live remote tools, fetched
fresh from each client. -/
def ToolRegistry.get_all_tool_schemas (r : ToolRegistry) : List FnSchema :=
  r.get_definitions ++
    r.mcp_clients.flatMap (fun c =>
      c.get_tools.map (fun t =>
        { name := t.name, description := t.description, parameters := t.input_schema }))

/-- A tool-call directive from a model reply.  `argumentsJson` is the result
of applying `json.loads` to the directive's raw `arguments` payload text: a
syntactically valid payload is `.ok args`, an invalid one is `.error msg`
(the parse exception's message). -/
structure ToolCall where
  id : String
  name : String
  argumentsJson : Except String Args

/-- An `LLMResponse` (`light_agent/providers/base.py`): optional content and
tool calls (Python's `None` tool-call list is the empty list; both are falsy
at every use site embedded here). -/
structure LLMResponse where
  content : Option String
  tool_calls : List ToolCall

/-- `LLMResponse.has_tool_calls`. -/
def LLMResponse.has_tool_calls (resp : LLMResponse) : Bool :=
  ¬ resp.tool_calls.isEmpty

/-- One transcript message of a loop run. -/
inductive Msg where
  | system (content : String)
  | user (content : String)
  | assistant (content : String)
  | assistantCalls (content : String) (calls : List ToolCall)
  | tool (tool_call_id name content : String)

/-- The loop's tool-schema cache fields (`_tool_schemas_cache`,
`_tool_schemas_version`). -/
structure SchemaCache where
  cache : Option (List FnSchema)
  version : Nat

/-- The cache key of `AgentLoop._get_cached_tool_schemas`:
`len(self.tools) + sum(len(mcp) for mcp in self.tools.mcp_clients)`. -/
def schemasVersion (r : ToolRegistry) : Nat :=
  r.tools.length + (r.mcp_clients.map MCPClient.len).sum

/-- `AgentLoop._get_cached_tool_schemas` (loop.py lines 100-108): serve the
cached schema list whenever one exists and the count-based version is
unchanged; otherwise fetch fresh via `get_all_tool_schemas` and cache it. -/
def getCachedToolSchemas (st : SchemaCache) (r : ToolRegistry) :
    List FnSchema × SchemaCache :=
  match st.cache with
  | some cached =>
      if st.version = schemasVersion r then (cached, st)
      else
        let schemas := r.get_all_tool_schemas
        (schemas, { cache := some schemas, version := schemasVersion r })
  | none =>
      let schemas := r.get_all_tool_schemas
      (schemas, { cache := some schemas, version := schemasVersion r })

/-- The tool-call handling of `AgentLoop.run` (loop.py lines 165-175) for the
directives of one reply, in the order the model returned them:
`json.loads` is **not** guarded, so a parse failure is a propagating
exception; the dispatch via `call_tool` is likewise unguarded, so a
propagating MCP fault escapes too.  On success a tool-result message keyed by
the directive's call id is appended per directive. -/
def processToolCalls (r : ToolRegistry) : List ToolCall → List Msg → Except String (List Msg)
  | [], msgs => .ok msgs
  | tc :: rest, msgs =>
      match tc.argumentsJson with
      | .error e => .error e
      | .ok args =>
          match r.call_tool tc.name args with
          | .error e => .error e
          | .ok result => processToolCalls r rest (msgs ++ [.tool tc.id tc.name result])

/-- Outcome of `AgentLoop.run`: the returned answer, the number of loop
iterations executed, the transcript, and whether the loop broke out on a
reply without tool calls (`completedNaturally = false` means the
`max_iterations` cap was exhausted). -/
structure RunResult where
  answer : String
  iterations : Nat
  messages : List Msg
  completedNaturally : Bool

/-- The content handling at the top of each loop iteration (loop.py lines
152-159): a non-empty reply content is appended as an assistant message and
becomes the current `final_answer`; empty or missing content changes
nothing. -/
def stepContent (resp : LLMResponse) (msgs : List Msg) (finalAnswer : String) :
    List Msg × String :=
  match resp.content with
  | some c => if c = "" then (msgs, finalAnswer) else (msgs ++ [.assistant c], c)
  | none => (msgs, finalAnswer)

/-- The iteration body of `AgentLoop.run` (loop.py lines 133-190).  `fuel` is
the remaining iteration budget, `i` the number of iterations already run,
`finalAnswer` the last non-empty content seen (initially `""`).  Each
iteration: fetch the (cached) tool schemas, call the provider with them,
append the assistant message and update `final_answer` only when the reply
content is non-empty, break when the reply has no tool calls, otherwise
process the directives (whose faults propagate). -/
def runIter (r : ToolRegistry) (provider : Nat → List FnSchema → LLMResponse) :
    Nat → Nat → String → List Msg → SchemaCache → Except String RunResult
  | 0, i, finalAnswer, msgs, _ => .ok ⟨finalAnswer, i, msgs, false⟩
  | fuel + 1, i, finalAnswer, msgs, cache =>
      let fetched := getCachedToolSchemas cache r
      let resp := provider i fetched.1
      let step := stepContent resp msgs finalAnswer
      if resp.tool_calls.isEmpty then .ok ⟨step.2, i + 1, step.1, true⟩
      else
        match processToolCalls r resp.tool_calls step.1 with
        | .error e => .error e
        | .ok msgs' => runIter r provider fuel (i + 1) step.2 msgs' fetched.2

/-- `AgentLoop.run` for one user input (loop.py lines 120-207): seed the
transcript with the system prompt (built from external collaborators, here a
parameter) and the user message, run up to `max_iterations = 10` iterations,
and return `final_answer or "Error: No response generated"`.  The optional
summary/long-memory step at the end does not affect the returned answer and
is omitted.  An `Except.error` result is an exception propagating out of
`run` — a crash of the loop run. -/
def AgentLoop.run (r : ToolRegistry) (provider : Nat → List FnSchema → LLMResponse)
    (systemPrompt userInput : String) : Except String RunResult :=
  match runIter r provider 10 0 "" [.system systemPrompt, .user userInput] ⟨none, 0⟩ with
  | .ok res =>
      .ok { res with answer := if res.answer = "" then "Error: No response generated" else res.answer }
  | .error e => .error e

/-- The spawn-time origin of a subagent task: the session the terminal
result is announced to. -/
structure Origin where
  channel : String
  chat_id : String

/-- One entry of the subagent results table (`SubagentManager._results`).
The recorded entries carry all five fields; the `wait_for` placeholder dict
has no `label`/`task` keys, embedded as `none`. -/
structure ResultRecord where
  task_id : String
  label : Option String
  task : Option String
  result : String
  status : String

/-- The sub-loop body of `SubagentManager._run_subagent` processes tool
calls with `tools.execute` — the total registry dispatch — after an
unguarded `json.loads` (subagent.py line 177), which sits inside the
task-level `try`, so a parse failure aborts the whole subagent run. -/
def subagentProcessCalls (r : ToolRegistry) : List ToolCall → List Msg → Except String (List Msg)
  | [], msgs => .ok msgs
  | tc :: rest, msgs =>
      match tc.argumentsJson with
      | .error e => .error e
      | .ok args =>
          subagentProcessCalls r rest (msgs ++ [.tool tc.id tc.name (r.execute tc.name args)])

/-- The bounded agent loop inside `SubagentManager._run_subagent`
(subagent.py lines 138-193): up to `max_iterations = 15` iterations; a reply
with tool calls appends the assistant message and one tool-result message per
directive, a reply without tool calls ends the loop with `final_result =
response.content`; running out of iterations leaves `final_result = None`
(`.ok none`).  A propagating fault (e.g. the unguarded parse) is
`.error msg`. -/
def subagentIter (r : ToolRegistry) (provider : Nat → LLMResponse) :
    Nat → Nat → List Msg → Except String (Option String)
  | 0, _, _ => .ok none
  | fuel + 1, i, msgs =>
      let resp := provider i
      if resp.has_tool_calls then
        match subagentProcessCalls r resp.tool_calls
            (msgs ++ [.assistantCalls ((resp.content).getD "") resp.tool_calls]) with
        | .error e => .error e
        | .ok msgs' => subagentIter r provider fuel (i + 1) msgs'
      else .ok resp.content

/-- The try-block outcome of one subagent run, with the subagent's private
transcript seeded from the task-focused system prompt and the task text. -/
def subagentLoopOutcome (r : ToolRegistry) (provider : Nat → LLMResponse)
    (systemPrompt task : String) : Except String (Option String) :=
  subagentIter r provider 15 0 [.system systemPrompt, .user task]

/-- How `_run_subagent` turns the try-block outcome into the recorded
`(result, status)` pair (subagent.py lines 195-206): a natural final reply
records it with status `"ok"`; a run that produced no final response records
a fixed sentinel, still `"ok"`; any uncaught fault records
`"Error: {message}"` with status `"error"`. -/
def runSubagentOutcome (outcome : Except String (Option String)) : String × String :=
  match outcome with
  | .ok (some content) => (content, "ok")
  | .ok none => ("Task completed but no final response was generated.", "ok")
  | .error e => ("Error: " ++ e, "error")

/-- What a spawned background task will do when it finishes:
`finishes` carries the spawn-time label, task text, origin and the
try-block outcome its execution reaches; `vanishes` models a task torn down
before `_record_result` could run (e.g. cancellation), the one way a task id
ends without a recorded result. -/
inductive TaskFate where
  | finishes (label task : String) (origin : Origin) (outcome : Except String (Option String))
  | vanishes

/-- The state of one `SubagentManager` plus the session store behind the
external session collaborator: the `_running_tasks` table (each id paired
with what its task will do), the `_results` table, and per-key session
message lists (role/content pairs). -/
structure SubagentState where
  running : List (String × TaskFate)
  results : List (String × ResultRecord)
  sessions : List (String × List (String × String))

/-- Modelled from the spec: the session collaborator
(`lightagent/session/manager.py` is not under `src/`).  Per §6 it offers
`getOrCreate(key)`, `session.addMessage(role, content)` and `save(session)`;
the three together append one message to the session stored under `key`. -/
def sessionAppend (sessions : List (String × List (String × String)))
    (key role content : String) : List (String × List (String × String)) :=
  match sessions.find? (fun kv => kv.1 == key) with
  | some kv => dictInsert sessions key (kv.2 ++ [(role, content)])
  | none => dictInsert sessions key [(role, content)]

/-- The announcement text `_record_result` posts (subagent.py lines
218-225). -/
def announceContent (label task result status : String) : String :=
  "[Subagent '" ++ label ++ "' " ++
    (if status = "ok" then "completed successfully" else "failed") ++ "]\n\nTask: " ++
    task ++ "\n\nResult:\n" ++ result

/-- The session key `_record_result` addresses:
`f"{origin['channel']}:{origin['chat_id']}"`. -/
def Origin.key (o : Origin) : String :=
  o.channel ++ ":" ++ o.chat_id

/-- `SubagentManager._record_result` (subagent.py lines 208-244): store the
`{task_id, label, task, result, status}` record in `_results` and append one
`system`-role announcement message to the session identified by the
origin. -/
def recordResult (st : SubagentState) (task_id label task result : String)
    (origin : Origin) (status : String) : SubagentState :=
  { st with
    results := dictInsert st.results task_id
      { task_id := task_id, label := some label, task := some task
        result := result, status := status }
    sessions := sessionAppend st.sessions origin.key "system"
      (announceContent label task result status) }

/-- The `_running_tasks` entry for a task id. -/
def fateLookup (st : SubagentState) (tid : String) : Option TaskFate :=
  (st.running.find? (fun kv => kv.1 == tid)).map Prod.snd

/-- Run the background task registered under `tid` to completion: a
`finishes` fate performs `_run_subagent`'s single terminal step — one
`_record_result` with the outcome-derived result/status — and the
done-callback then removes the id from `_running_tasks`; a `vanishes` fate
only disappears from the running table.  An unknown id is a no-op. -/
def resolveTask (st : SubagentState) (tid : String) : SubagentState :=
  match fateLookup st tid with
  | some (.finishes label task origin outcome) =>
      let rs := runSubagentOutcome outcome
      let st' := recordResult st tid label task rs.1 origin rs.2
      { st' with running := st'.running.filter (fun kv => !(kv.1 == tid)) }
  | some .vanishes =>
      { st with running := st.running.filter (fun kv => !(kv.1 == tid)) }
  | none => st

/-- The display label `spawn` derives when no label is given:
`task[:30] + ("..." if len(task) > 30 else "")`. -/
def displayLabel (label : Option String) (task : String) : String :=
  match label with
  | some l => l
  | none => (task.take 30) ++ (if task.length > 30 then "..." else "")

/-- `SubagentManager.spawn` (subagent.py lines 52-94): register the new task
id in `_running_tasks` with the work its background task will perform, and
return the acknowledgement string immediately, without awaiting
completion. -/
def SubagentManager.spawn (st : SubagentState) (task_id : String) (task : String)
    (label : Option String) (origin : Origin)
    (outcome : Except String (Option String)) : SubagentState × String :=
  ({ st with running :=
      st.running ++ [(task_id, .finishes (displayLabel label task) task origin outcome)] },
   "Subagent [" ++ displayLabel label task ++ "] started (id: " ++ task_id ++
     "). I'll notify you when it completes.")

/-- The reply of `wait_for`: the collected result dicts and the summary
line. -/
structure WaitResponse where
  results : List ResultRecord
  summary : String

/-- The ids `wait_for` actually awaits: all currently running ids when none
are requested, else the requested ids that are still in `_running_tasks`
(ids no longer running — unknown ones, but also ids whose task already
completed — are dropped). -/
def waitIds (st : SubagentState) (task_ids : Option (List String)) : List String :=
  match task_ids with
  | none => st.running.map Prod.fst
  | some tids => tids.filter (fun tid => (st.running.find? (fun kv => kv.1 == tid)).isSome)

/-- `SubagentManager.wait_for` (subagent.py lines 246-272): with nothing to
await, reply immediately; otherwise `asyncio.gather(*tasks,
return_exceptions=True)` drives every awaited task to completion (task
faults are swallowed), and one entry per awaited id, in the awaited order, is
collected from `_results` — an id with no recorded result yields the
`status "unknown"` placeholder. -/
def SubagentManager.wait_for (st : SubagentState) (task_ids : Option (List String)) :
    SubagentState × WaitResponse :=
  let ids := waitIds st task_ids
  if ids.isEmpty then
    (st, { results := [], summary := "No running subagents to wait for." })
  else
    let st' := ids.foldl resolveTask st
    let results := ids.map (fun tid =>
      match (st'.results.find? (fun kv => kv.1 == tid)).map Prod.snd with
      | some rec => rec
      | none =>
          { task_id := tid, label := none, task := none
            status := "unknown", result := "Result not found after wait." })
    (st', { results := results
            summary := "Waited for " ++ toString ids.length ++ " subagent(s)." })

/-- `SubagentManager.get_result`: a pure read of `_results`. -/
def SubagentManager.get_result (st : SubagentState) (task_id : String) :
    Option ResultRecord :=
  (st.results.find? (fun kv => kv.1 == task_id)).map Prod.snd

/-- A resource owned by the client's `AsyncExitStack` during `connect`:
the stdio transport (subprocess plus stream pair) and the protocol session
context. -/
inductive McpResource where
  | transport
  | session_ctx

/-- The connection-relevant state of one `MCPClient`: the exit stack's
acquired resources (most recent first) and `self.session`. -/
structure MCPConnState where
  exit_stack : List McpResource
  session : Option Unit

/-- A freshly constructed client: empty exit stack, no session. -/
def MCPConnState.fresh : MCPConnState :=
  { exit_stack := [], session := none }

/-- `AsyncExitStack.aclose`: unwind every owned resource in reverse
acquisition order inside one scoped teardown; a failure freeing one resource
(`faulty`) does not stop the remaining releases, and the first such failure
is reported after the stack is empty. -/
def aclose (faulty : McpResource → Bool) (stack : List McpResource) :
    List McpResource × Option String :=
  ([], if stack.any faulty then some "release fault" else none)

/-- `MCPClient.cleanup` (mcp_client.py lines 73-84): `aclose` the exit
stack, swallowing any error it reports (logged, never re-raised).  Total —
cleanup never raises — and callable from any state. -/
def MCPClient.cleanup (faulty : McpResource → Bool) (st : MCPConnState) : MCPConnState :=
  { st with exit_stack := (aclose faulty st.exit_stack).1 }

/-- Which steps of the connect sequence succeed: spawning the subprocess and
opening the stdio transport, entering the protocol session, and the
`initialize` handshake. -/
structure ConnectEnv where
  spawnOk : Bool
  sessionOk : Bool
  initOk : Bool

/-- `MCPClient.connect` (mcp_client.py lines 32-71): acquire the stdio
transport and the session context on the exit stack, run the handshake, and
set `self.session`; any failure runs `cleanup` — releasing every
partially-acquired resource — before the exception is re-raised to the
caller (`Except.error`). -/
def MCPClient.connect (env : ConnectEnv) (faulty : McpResource → Bool)
    (st : MCPConnState) : MCPConnState × Except String Unit :=
  if ¬ env.spawnOk then
    (MCPClient.cleanup faulty st, .error "subprocess spawn failed")
  else
    let st1 := { st with exit_stack := .transport :: st.exit_stack }
    if ¬ env.sessionOk then
      (MCPClient.cleanup faulty st1, .error "session open failed")
    else
      let st2 := { st1 with exit_stack := .session_ctx :: st1.exit_stack }
      if ¬ env.initOk then
        (MCPClient.cleanup faulty st2, .error "initialize handshake failed")
      else
        ({ st2 with session := some () }, .ok ())

/-- The ids currently in `_running_tasks`. -/
def runningIds (st : SubagentState) : List String :=
  st.running.map Prod.fst

/-- The message list stored under one session key (empty when the key has no
session yet). -/
def sessionMsgs (st : SubagentState) (key : String) : List (String × String) :=
  ((st.sessions.find? (fun kv => kv.1 == key)).map Prod.snd).getD []

/-- Results-table well-formedness: every stored record carries the task id it
is keyed by.  `_record_result` only ever writes such records. -/
def resultsWF (st : SubagentState) : Prop :=
  ∀ p ∈ st.results, p.2.task_id = p.1

/-- Registry well-formedness: every stored tool is keyed by its own name,
as `register` guarantees. -/
def registryWF (r : ToolRegistry) : Prop :=
  ∀ p ∈ r.tools, p.2.name = p.1

/-- The `status "unknown"` placeholder dict `wait_for` substitutes for a
missing result. -/
def unknownResult (tid : String) : ResultRecord :=
  { task_id := tid, label := none, task := none
    status := "unknown", result := "Result not found after wait." }

/-- The running value of `final_answer` across loop iterations
`i, i+1, ...`: the content of the last reply with non-empty content, the
accumulator otherwise. -/
def contentFold (provider : Nat → List FnSchema → LLMResponse) (schemas : List FnSchema) :
    String → Nat → Nat → String
  | acc, _, 0 => acc
  | acc, i, fuel + 1 =>
      contentFold provider schemas (stepContent (provider i schemas) [] acc).2 (i + 1) fuel

/-- The schema-cache state after a successful fetch against registry `r`. -/
def stableCache (r : ToolRegistry) : SchemaCache :=
  { cache := some r.get_all_tool_schemas, version := schemasVersion r }

/-- The mock tool of `tests/agents/test_tool.py`: `input` (required string),
`count` (integer in `[1, 100]`), `enabled` (boolean). -/
def mockTool : Tool :=
  { name := "mock_tool"
    description := "A mock tool for testing"
    parameters := .obj
      [("input", .str [] none none), ("count", .int (some 1) (some 100)), ("enabled", .bool)]
      ["input"]
    exec := fun _ => .ok "executed" }

/-- The nested-object tool of `tests/agents/test_tool.py`: required object
`config` with required string field `key`. -/
def nestedTool : Tool :=
  { name := "nested_tool"
    description := "Tool with nested object"
    parameters := .obj [("config", .obj [("key", .str [] none none)] ["key"])] ["config"]
    exec := fun _ => .ok "executed" }

/-- The enum tool of `tests/agents/test_tool.py`: required `mode` drawn from
`read`/`write`/`delete`. -/
def enumTool : Tool :=
  { name := "enum_tool"
    description := "Tool with enum"
    parameters := .obj [("mode", .str ["read", "write", "delete"] none none)] ["mode"]
    exec := fun _ => .ok "executed" }

/-- A local tool whose executor raises, exercising the registry's fault
conversion. -/
def faultyTool : Tool :=
  { name := "faulty"
    description := "always raises"
    parameters := .obj [] []
    exec := fun _ => .error "test error" }

/-- A registry with one local tool of each demo kind. -/
def demoRegistry : ToolRegistry :=
  ((ToolRegistry.empty.register mockTool).register nestedTool).register faultyTool

/-- A connected client whose remote call raises. -/
def faultyClient : MCPClient :=
  { name := "srv", session := some { tools := [], call := fun _ _ => .error "boom" } }

/-- A registry holding only the faulting client. -/
def faultyClientRegistry : ToolRegistry :=
  { tools := [], mcp_clients := [faultyClient] }

/-- A connected client named `fetcher` whose session reports back the tool
name it was asked to run, making the forwarded name observable. -/
def fetcherClient : MCPClient :=
  { name := "fetcher", session := some { tools := [], call := fun n _ => .ok ("forwarded:" ++ n) } }

/-- A registry holding only the `fetcher` client. -/
def fetcherRegistry : ToolRegistry :=
  { tools := [], mcp_clients := [fetcherClient] }

/-- A client named `srv` currently serving the given remote tools. -/
def servingClient (ts : List RemoteTool) : MCPClient :=
  { name := "srv", session := some { tools := ts, call := fun _ _ => .ok "" } }

/-- A remote tool named `toolA`. -/
def toolA : RemoteTool :=
  { name := "toolA", description := "first remote tool", input_schema := .obj [] [] }

/-- A remote tool named `toolB`. -/
def toolB : RemoteTool :=
  { name := "toolB", description := "second remote tool", input_schema := .obj [] [] }

/-- Registry state while `srv` serves only `toolA`. -/
def registryServingA : ToolRegistry :=
  { tools := [], mcp_clients := [servingClient [toolA]] }

/-- Registry state after `srv`'s remote tool set changed to only `toolB`
(same tool count). -/
def registryServingB : ToolRegistry :=
  { tools := [], mcp_clients := [servingClient [toolB]] }

/-- A model script whose first reply requests a tool call with a
syntactically invalid arguments payload. -/
def badPayloadProvider : Nat → List FnSchema → LLMResponse :=
  fun _ _ =>
    { content := some "Let me call a tool"
      tool_calls := [⟨"call_1", "read_file", .error "Expecting value: line 1 column 1 (char 0)"⟩] }

/-- The same invalid-payload script, as seen by a subagent run. -/
def badPayloadSubProvider : Nat → LLMResponse :=
  fun _ =>
    { content := some "Let me call a tool"
      tool_calls := [⟨"call_1", "read_file", .error "Expecting value: line 1 column 1 (char 0)"⟩] }

/-- A model script that always replies with neither content nor tool
calls. -/
def silentProvider : Nat → List FnSchema → LLMResponse :=
  fun _ _ => { content := none, tool_calls := [] }

/-- A model script that answers immediately with plain content. -/
def helloProvider : Nat → List FnSchema → LLMResponse :=
  fun _ _ => { content := some "Hello, I can help you!", tool_calls := [] }

/-- Manager state after spawning task `t1`. -/
def spawnedState : SubagentState :=
  (SubagentManager.spawn ⟨[], [], []⟩ "t1" "do the thing" (some "worker")
    ⟨"cli", "direct"⟩ (.ok (some "done"))).1

/-- Manager state after task `t1` finished and its done-callback removed it
from `_running_tasks` — its result now lives only in `_results`. -/
def completedState : SubagentState :=
  resolveTask spawnedState "t1"

theorem find?_dictInsert_self {α : Type} (kvs : List (String × α)) (k : String) (v : α) :
    (dictInsert kvs k v).find? (fun kv => kv.1 == k) = some (k, v) := by
  induction kvs with
  | nil => simp [dictInsert]
  | cons hd tl ih =>
      obtain ⟨k', v'⟩ := hd
      by_cases h : k' == k
      · obtain rfl : k' = k := eq_of_beq h
        simp [dictInsert]
      · simp [dictInsert, h, ih]

theorem find?_dictInsert_ne {α : Type} (kvs : List (String × α)) (k k' : String) (v : α)
    (hne : k' ≠ k) :
    (dictInsert kvs k v).find? (fun kv => kv.1 == k')
      = kvs.find? (fun kv => kv.1 == k') := by
  induction kvs with
  | nil =>
      simp [dictInsert, beq_iff_eq]
      exact Ne.symm hne
  | cons hd tl ih =>
      obtain ⟨k₀, v₀⟩ := hd
      by_cases h : k₀ == k
      · obtain rfl : k₀ = k := eq_of_beq h
        simp [dictInsert, hne, beq_iff_eq, Ne.symm hne]
      · by_cases h' : k₀ == k'
        · obtain rfl : k₀ = k' := eq_of_beq h'
          simp [dictInsert, h]
        · simp [dictInsert, h, h', ih]

theorem mem_dictInsert {α : Type} (kvs : List (String × α)) (k : String) (v : α)
    (p : String × α) (hp : p ∈ dictInsert kvs k v) : p ∈ kvs ∨ p = (k, v) := by
  induction kvs with
  | nil => simpa [dictInsert] using hp
  | cons hd tl ih =>
      obtain ⟨k₀, v₀⟩ := hd
      by_cases h : k₀ == k
      · obtain rfl : k₀ = k := eq_of_beq h
        simp [dictInsert] at hp
        rcases hp with rfl | hp
        · exact Or.inr rfl
        · exact Or.inl (List.mem_cons_of_mem _ hp)
      · simp [dictInsert, h] at hp
        rcases hp with rfl | hp
        · exact Or.inl (List.mem_cons_self _ _)
        · rcases ih hp with h' | h'
          · exact Or.inl (List.mem_cons_of_mem _ h')
          · exact Or.inr h'

theorem map_fst_dictInsert_fresh {α : Type} (kvs : List (String × α)) (k : String) (v : α)
    (hfresh : k ∉ kvs.map Prod.fst) :
    (dictInsert kvs k v).map Prod.fst = kvs.map Prod.fst ++ [k] := by
  induction kvs with
  | nil => simp [dictInsert]
  | cons hd tl ih =>
      obtain ⟨k₀, v₀⟩ := hd
      rw [List.map_cons] at hfresh
      have hne : k ≠ k₀ := fun h => hfresh (h ▸ List.mem_cons_self _ _)
      have htl : k ∉ tl.map Prod.fst := fun h => hfresh (List.mem_cons_of_mem _ h)
      by_cases h : k₀ == k
      · exact absurd (eq_of_beq h).symm hne
      · simp [dictInsert, h, ih htl]

/-- C9: any failure during the protocol client's connect sequence
(subprocess spawn / transport open, session open, handshake) releases every
partially-acquired exit-stack resource before the failure is reported, and
the teardown is safe from any state and idempotent: `cleanup` always leaves
an empty exit stack, never raises (it is total and swallows release faults),
and running it again is a no-op. -/
theorem connect_failure_releases_all_resources (env : ConnectEnv)
    (faulty : McpResource → Bool) (st : MCPConnState) (e : String)
    (hfail : (MCPClient.connect env faulty st).2 = .error e) :
    (MCPClient.connect env faulty st).1.exit_stack = []
    ∧ (MCPClient.connect env faulty st).1.session = st.session
    ∧ (∀ st' : MCPConnState, (MCPClient.cleanup faulty st').exit_stack = []
        ∧ MCPClient.cleanup faulty (MCPClient.cleanup faulty st')
            = MCPClient.cleanup faulty st') := by
  obtain ⟨sp, so, io⟩ := env
  cases sp <;> cases so <;> cases io <;>
    simp_all [MCPClient.connect, MCPClient.cleanup, aclose]

/-- C9 (witness): a connect whose subprocess spawn fails, on a fresh client,
reports the failure with the exit stack empty and no session; cleanup
afterwards is still safe. -/
theorem connect_failure_releases_all_resources_witness :
    (MCPClient.connect ⟨false, true, true⟩ (fun _ => false) MCPConnState.fresh).2
      = .error "subprocess spawn failed"
    ∧ (MCPClient.connect ⟨false, true, true⟩ (fun _ => false) MCPConnState.fresh).1.exit_stack
      = []
    ∧ (MCPClient.connect ⟨false, true, true⟩ (fun _ => false) MCPConnState.fresh).1.session
      = none := by
  have h := connect_failure_releases_all_resources ⟨false, true, true⟩ (fun _ => false)
    MCPConnState.fresh "subprocess spawn failed" rfl
  exact ⟨rfl, h.1, h.2.1⟩

/-- C1 (counterexample): dispatching the namespaced name `srv__t` through a
registry whose connected protocol client's remote call raises propagates the
exception to `call_tool`'s caller — it is not converted to an
`Error executing srv__t: ...` string — refuting "never propagates an
exception to its caller". -/
theorem call_tool_propagates_remote_fault :
    faultyClientRegistry.call_tool "srv__t" [] = .error "boom" := rfl

/-- C1 (amended): dispatch via `execute` never propagates — an unknown name
yields the not-found string, invalid arguments yield the aggregated error
string, and a local executor fault is converted to
`Error executing {name}: {message}` — but a name routed to a matching
protocol client returns that client's outcome unguarded: a not-connected
client yields an error string, while a connected client's remote fault
propagates to the caller. -/
theorem registry_dispatch_error_containment (r : ToolRegistry) (name : String)
    (args : Args) :
    (r.routedClient name = none → r.call_tool name args = .ok (r.execute name args))
    ∧ (∀ c, r.routedClient name = some c →
        r.call_tool name args = c.call_tool name args
        ∧ (c.session = none → c.call_tool name args = .ok "Error: Session not connected"))
    ∧ (r.get name = none → r.execute name args = "Error: Tool '" ++ name ++ "' not found")
    ∧ (∀ t, r.get name = some t → t.validate_params args ≠ [] →
        r.execute name args
          = "Error: Invalid parameters for tool '" ++ name ++ "': "
            ++ String.intercalate "; " (t.validate_params args))
    ∧ (∀ t m, r.get name = some t → t.validate_params args = [] → t.exec args = .error m →
        r.execute name args = "Error executing " ++ name ++ ": " ++ m)
    ∧ (∀ t s, r.get name = some t → t.validate_params args = [] → t.exec args = .ok s →
        r.execute name args = s) := by
  refine ⟨?_, ?_, ?_, ?_, ?_, ?_⟩
  · intro h
    simp [ToolRegistry.call_tool, h]
  · intro c h
    refine ⟨by simp [ToolRegistry.call_tool, h], ?_⟩
    intro hs
    simp [MCPClient.call_tool, hs]
  · intro h
    simp [ToolRegistry.execute, h]
  · intro t h hv
    simp [ToolRegistry.execute, h, hv]
  · intro t m h hv he
    simp [ToolRegistry.execute, h, hv, he]
  · intro t s h hv he
    simp [ToolRegistry.execute, h, hv, he]

/-- C1 (witness): on the demo registry, a raising local executor is converted
to the `Error executing ...` string and an unknown name to the not-found
string. -/
theorem registry_dispatch_error_containment_witness :
    demoRegistry.execute "faulty" [] = "Error executing faulty: test error"
    ∧ demoRegistry.execute "nope" [] = "Error: Tool 'nope' not found" := by
  constructor
  · exact (registry_dispatch_error_containment demoRegistry "faulty" []).2.2.2.2.1
      faultyTool "test error" rfl
      (by simp [faultyTool, Tool.validate_params, validateValue]) rfl
  · exact (registry_dispatch_error_containment demoRegistry "nope" []).2.2.1 rfl

/-- C5 (counterexample): with client `fetcher` connected, the namespaced name
`fetcher__get__v2` (remote tool `get__v2`) does route to the client, but the
session is asked to run `v2` — the last `__`-separated segment — not the
remainder `get__v2` left after stripping the server prefix. -/
theorem call_tool_forwards_last_segment_only :
    fetcherRegistry.call_tool "fetcher__get__v2" [] = .ok "forwarded:v2"
    ∧ ("forwarded:v2" : String) ≠ "forwarded:get__v2" := by
  exact ⟨rfl, by decide⟩

/-- C5 (amended): a namespaced name matching a registered client's
`{server}__` prefix is dispatched to that client — never to a local
capability — a not-connected client returns an error string rather than
raising, and the remote name forwarded to the session is the *last*
`__`-separated segment of the namespaced name; that segment equals the
remote tool name whenever the tool name itself contains no `__`, as in the
scenario `fetcher__get` ↦ `get`. -/
theorem namespaced_dispatch_routes_to_client (r : ToolRegistry) (name : String)
    (args : Args) (c : MCPClient) (h : r.routedClient name = some c) :
    r.call_tool name args = c.call_tool name args
    ∧ (c.session = none → c.call_tool name args = .ok "Error: Session not connected")
    ∧ (∀ s, c.session = some s →
        c.call_tool name args = s.call ((dunderSplit name).getLastD name) args)
    ∧ (dunderSplit "fetcher__get").getLastD "fetcher__get" = "get" := by
  refine ⟨by simp [ToolRegistry.call_tool, h], ?_, ?_, rfl⟩
  · intro hs
    simp [MCPClient.call_tool, hs]
  · intro s hs
    simp [MCPClient.call_tool, hs]

/-- C5 (witness): dispatching `fetcher__get` with client `fetcher` registered
goes to the client's `call_tool`, which forwards `get` to the session. -/
theorem namespaced_dispatch_routes_to_client_witness :
    fetcherRegistry.call_tool "fetcher__get" [] = fetcherClient.call_tool "fetcher__get" []
    ∧ fetcherClient.call_tool "fetcher__get" [] = .ok "forwarded:get" := by
  exact ⟨(namespaced_dispatch_routes_to_client fetcherRegistry "fetcher__get" []
    fetcherClient rfl).1, rfl⟩

/-- C6 (counterexample): with client `srv` serving `toolA`, the first loop
iteration fetches and caches the manifest; after the client's remote tool
set changes to `toolB` — same tool count, so the count-keyed cache version is
unchanged — the next iteration is served the stale cache: its manifest still
lists `srv__toolA` and misses the live remote capability `srv__toolB`. -/
theorem manifest_served_from_stale_cache :
    ((getCachedToolSchemas (getCachedToolSchemas ⟨none, 0⟩ registryServingA).2
        registryServingB).1.map FnSchema.name = ["srv__toolA"])
    ∧ registryServingB.get_all_tool_schemas.map FnSchema.name = ["srv__toolB"] :=
  ⟨rfl, rfl⟩

/-- C6 (amended): the loop's per-iteration manifest is served through a
cache keyed by `len(tools) + sum(len(mcp))`: with an empty cache or a
changed count it is fetched fresh via `get_all_tool_schemas` — every local
capability followed by every live remote capability of each connected
client — and cached; with an unchanged count the previously cached manifest
is returned as-is, so a remote tool-set change preserving the count is not
reflected in the next iteration. -/
theorem manifest_cache_characterization (st : SchemaCache) (r : ToolRegistry)
    (hwf : registryWF r) :
    (st.cache = none ∨ st.version ≠ schemasVersion r →
      getCachedToolSchemas st r = (r.get_all_tool_schemas, stableCache r))
    ∧ (∀ cached, st.cache = some cached → st.version = schemasVersion r →
        getCachedToolSchemas st r = (cached, st))
    ∧ r.get_all_tool_schemas.map FnSchema.name
        = r.tools.map Prod.fst
          ++ r.mcp_clients.flatMap (fun c => c.get_tools.map RemoteTool.name) := by
  refine ⟨?_, ?_, ?_⟩
  · rintro (h | h)
    · simp [getCachedToolSchemas, h, stableCache]
    · cases hc : st.cache with
      | none => simp [getCachedToolSchemas, hc, stableCache]
      | some cached => simp [getCachedToolSchemas, hc, h, stableCache]
  · intro cached hc hv
    simp [getCachedToolSchemas, hc, hv]
  · rw [ToolRegistry.get_all_tool_schemas, List.map_append]
    congr 1
    · rw [ToolRegistry.get_definitions, List.map_map]
      exact List.map_congr_left (fun p hp => hwf p hp)
    · rw [List.map_flatMap]
      congr 1
      funext c
      rw [List.map_map]
      rfl

/-- C6 (witness): an empty cache forces a fresh fetch against the live
registry state. -/
theorem manifest_cache_characterization_witness :
    getCachedToolSchemas ⟨none, 0⟩ registryServingA
      = (registryServingA.get_all_tool_schemas, stableCache registryServingA) := by
  exact (manifest_cache_characterization ⟨none, 0⟩ registryServingA
    (fun p hp => absurd hp (List.not_mem_nil p))).1 (Or.inl rfl)

theorem processToolCalls_error_head (r : ToolRegistry) (tc : ToolCall)
    (rest : List ToolCall) (msgs : List Msg) (e : String)
    (hbad : tc.argumentsJson = .error e) :
    processToolCalls r (tc :: rest) msgs = .error e := by
  simp [processToolCalls, hbad]

theorem runIter_error_of_bad_payload (r : ToolRegistry)
    (provider : Nat → List FnSchema → LLMResponse) (fuel i : Nat) (acc : String)
    (msgs : List Msg) (cache : SchemaCache) (tc : ToolCall) (rest : List ToolCall)
    (e : String)
    (hcalls : (provider i (getCachedToolSchemas cache r).1).tool_calls = tc :: rest)
    (hbad : tc.argumentsJson = .error e) :
    runIter r provider (fuel + 1) i acc msgs cache = .error e := by
  simp [runIter, hcalls, processToolCalls, hbad]

theorem subagentIter_error_of_bad_payload (r : ToolRegistry)
    (provider : Nat → LLMResponse) (fuel i : Nat) (msgs : List Msg) (tc : ToolCall)
    (rest : List ToolCall) (e : String)
    (hcalls : (provider i).tool_calls = tc :: rest)
    (hbad : tc.argumentsJson = .error e) :
    subagentIter r provider (fuel + 1) i msgs = .error e := by
  simp [subagentIter, LLMResponse.has_tool_calls, hcalls, subagentProcessCalls, hbad]

/-- C2 (counterexample): a model reply carrying a tool-call directive whose
arguments payload is not valid JSON crashes the control-loop run: the parse
exception propagates out of `AgentLoop.run`, and no tool-result message is
recorded, refuting "produces a dispatch-time parsing error ... and
continues; it never crashes the loop run". -/
theorem invalid_payload_crashes_loop :
    AgentLoop.run ToolRegistry.empty badPayloadProvider "sys" "hi"
      = .error "Expecting value: line 1 column 1 (char 0)" := rfl

/-- C2 (amended): a tool-call directive with a syntactically invalid
arguments payload is not handled as a dispatch-time validation result: in
the main loop the `json.loads` exception propagates out of `run` (no
tool-result message is recorded and the loop does not continue), and in a
subagent run the same exception aborts the bounded loop, whose task then
records terminal status `error` with result `Error: {message}` instead of a
tool-result message. -/
theorem invalid_payload_crashes_not_records (r : ToolRegistry)
    (provider : Nat → List FnSchema → LLMResponse) (subProvider : Nat → LLMResponse)
    (sys user task e : String) (tc : ToolCall) (rest : List ToolCall)
    (hbad : tc.argumentsJson = .error e)
    (hmain : (provider 0 (getCachedToolSchemas ⟨none, 0⟩ r).1).tool_calls = tc :: rest)
    (hsub : (subProvider 0).tool_calls = tc :: rest) :
    AgentLoop.run r provider sys user = .error e
    ∧ subagentLoopOutcome r subProvider sys task = .error e
    ∧ runSubagentOutcome (.error e) = ("Error: " ++ e, "error") := by
  refine ⟨?_, ?_, rfl⟩
  · have h := runIter_error_of_bad_payload r provider 9 0 ""
      [.system sys, .user user] ⟨none, 0⟩ tc rest e hmain hbad
    unfold AgentLoop.run
    rw [show (10 : Nat) = 9 + 1 from rfl, h]
  · have h := subagentIter_error_of_bad_payload r subProvider 14 0
      [.system sys, .user task] tc rest e hsub hbad
    unfold subagentLoopOutcome
    rw [show (15 : Nat) = 14 + 1 from rfl, h]

/-- C2 (witness): the invalid-payload script drives a subagent run into the
propagating parse error, which the task records as a terminal `error`
result. -/
theorem invalid_payload_crashes_not_records_witness :
    subagentLoopOutcome ToolRegistry.empty badPayloadSubProvider "sys" "task"
      = .error "Expecting value: line 1 column 1 (char 0)"
    ∧ runSubagentOutcome (.error "Expecting value: line 1 column 1 (char 0)")
      = ("Error: Expecting value: line 1 column 1 (char 0)", "error") := by
  have h := invalid_payload_crashes_not_records ToolRegistry.empty badPayloadProvider
    badPayloadSubProvider "sys" "hi" "task" "Expecting value: line 1 column 1 (char 0)"
    ⟨"call_1", "read_file", .error "Expecting value: line 1 column 1 (char 0)"⟩ []
    rfl rfl rfl
  exact ⟨h.2.1, h.2.2⟩

theorem getCachedToolSchemas_stable (r : ToolRegistry) :
    getCachedToolSchemas (stableCache r) r = (r.get_all_tool_schemas, stableCache r) := by
  simp [getCachedToolSchemas, stableCache]

theorem call_tool_total_of_no_clients (r : ToolRegistry) (name : String) (args : Args)
    (h : r.mcp_clients = []) :
    r.call_tool name args = .ok (r.execute name args) := by
  simp [ToolRegistry.call_tool, ToolRegistry.routedClient, h]

theorem processToolCalls_ok_of_valid (r : ToolRegistry) (tcs : List ToolCall)
    (hmcp : r.mcp_clients = [])
    (hok : ∀ tc ∈ tcs, ∃ a, tc.argumentsJson = .ok a) :
    ∀ msgs, ∃ msgs', processToolCalls r tcs msgs = .ok msgs' := by
  induction tcs with
  | nil => exact fun msgs => ⟨msgs, rfl⟩
  | cons tc rest ih =>
      intro msgs
      obtain ⟨a, ha⟩ := hok tc (List.mem_cons_self _ _)
      have hcall := call_tool_total_of_no_clients r tc.name a hmcp
      obtain ⟨msgs', hm⟩ := ih (fun tc' h' => hok tc' (List.mem_cons_of_mem _ h'))
        (msgs ++ [.tool tc.id tc.name (r.execute tc.name a)])
      exact ⟨msgs', by simp [processToolCalls, ha, hcall, hm]⟩

theorem stepContent_snd_indep (resp : LLMResponse) (msgs msgs' : List Msg) (acc : String) :
    (stepContent resp msgs acc).2 = (stepContent resp msgs' acc).2 := by
  unfold stepContent
  rcases resp.content with _ | c
  · rfl
  · by_cases hc : c = "" <;> simp [hc]

theorem runIter_exhausts (r : ToolRegistry) (provider : Nat → List FnSchema → LLMResponse)
    (hmcp : r.mcp_clients = []) :
    ∀ fuel i acc msgs,
      (∀ j, i ≤ j → j < i + fuel →
        (provider j r.get_all_tool_schemas).tool_calls ≠ []) →
      (∀ j, i ≤ j → j < i + fuel → ∀ tc ∈ (provider j r.get_all_tool_schemas).tool_calls,
        ∃ a, tc.argumentsJson = .ok a) →
      ∃ msgs', runIter r provider fuel i acc msgs (stableCache r)
        = .ok ⟨contentFold provider r.get_all_tool_schemas acc i fuel, i + fuel, msgs', false⟩ := by
  intro fuel
  induction fuel with
  | zero =>
      intro i acc msgs _ _
      exact ⟨msgs, by simp [runIter, contentFold]⟩
  | succ fuel ih =>
      intro i acc msgs hc hp
      rcases hcalls : (provider i r.get_all_tool_schemas).tool_calls with _ | ⟨tc, rest⟩
      · exact absurd hcalls (hc i le_rfl (by omega))
      · have hp0 := hp i le_rfl (by omega)
        rw [hcalls] at hp0
        obtain ⟨msgs'', hps⟩ := processToolCalls_ok_of_valid r (tc :: rest) hmcp hp0
          (stepContent (provider i r.get_all_tool_schemas) msgs acc).1
        obtain ⟨msgs₃, h₃⟩ := ih (i + 1)
          (stepContent (provider i r.get_all_tool_schemas) [] acc).2 msgs''
          (fun j hj hj' => hc j (by omega) (by omega))
          (fun j hj hj' => hp j (by omega) (by omega))
        refine ⟨msgs₃, ?_⟩
        rw [show i + (fuel + 1) = i + 1 + fuel by omega]
        simp only [runIter, getCachedToolSchemas_stable, hcalls, List.isEmpty_cons,
          Bool.false_eq_true, if_false, hps]
        rw [stepContent_snd_indep (provider i r.get_all_tool_schemas) msgs [] acc]
        rw [show contentFold provider r.get_all_tool_schemas acc i (fuel + 1)
          = contentFold provider r.get_all_tool_schemas
              (stepContent (provider i r.get_all_tool_schemas) [] acc).2 (i + 1) fuel from rfl]
        exact h₃

theorem runIter_completes (r : ToolRegistry) (provider : Nat → List FnSchema → LLMResponse)
    (hmcp : r.mcp_clients = []) :
    ∀ k fuel i acc msgs, k < fuel →
      (∀ j, i ≤ j → j < i + k →
        (provider j r.get_all_tool_schemas).tool_calls ≠ []) →
      (∀ j, i ≤ j → j < i + k → ∀ tc ∈ (provider j r.get_all_tool_schemas).tool_calls,
        ∃ a, tc.argumentsJson = .ok a) →
      (provider (i + k) r.get_all_tool_schemas).tool_calls = [] →
      ∃ msgs', runIter r provider fuel i acc msgs (stableCache r)
        = .ok ⟨contentFold provider r.get_all_tool_schemas acc i (k + 1), i + k + 1, msgs', true⟩ := by
  intro k
  induction k with
  | zero =>
      intro fuel i acc msgs hk _ _ hstop
      obtain ⟨fuel', rfl⟩ : ∃ fuel', fuel = fuel' + 1 :=
        ⟨fuel - 1, by omega⟩
      rw [Nat.add_zero] at hstop
      refine ⟨(stepContent (provider i r.get_all_tool_schemas) msgs acc).1, ?_⟩
      simp only [runIter, getCachedToolSchemas_stable, hstop, List.isEmpty_nil, if_true]
      rw [stepContent_snd_indep (provider i r.get_all_tool_schemas) msgs [] acc]
      rfl
  | succ k ih =>
      intro fuel i acc msgs hk hc hp hstop
      obtain ⟨fuel', rfl⟩ : ∃ fuel', fuel = fuel' + 1 :=
        ⟨fuel - 1, by omega⟩
      rcases hcalls : (provider i r.get_all_tool_schemas).tool_calls with _ | ⟨tc, rest⟩
      · exact absurd hcalls (hc i le_rfl (by omega))
      · have hp0 := hp i le_rfl (by omega)
        rw [hcalls] at hp0
        obtain ⟨msgs'', hps⟩ := processToolCalls_ok_of_valid r (tc :: rest) hmcp hp0
          (stepContent (provider i r.get_all_tool_schemas) msgs acc).1
        obtain ⟨msgs₃, h₃⟩ := ih fuel' (i + 1)
          (stepContent (provider i r.get_all_tool_schemas) [] acc).2 msgs''
          (by omega)
          (fun j hj hj' => hc j (by omega) (by omega))
          (fun j hj hj' => hp j (by omega) (by omega))
          (by rw [show i + 1 + k = i + (k + 1) by omega]; exact hstop)
        refine ⟨msgs₃, ?_⟩
        rw [show i + (k + 1) + 1 = i + 1 + k + 1 by omega]
        simp only [runIter, getCachedToolSchemas_stable, hcalls, List.isEmpty_cons,
          Bool.false_eq_true, if_false, hps]
        rw [stepContent_snd_indep (provider i r.get_all_tool_schemas) msgs [] acc]
        exact h₃

theorem getCachedToolSchemas_init (r : ToolRegistry) :
    getCachedToolSchemas ⟨none, 0⟩ r = (r.get_all_tool_schemas, stableCache r) := rfl

theorem runIter_cache_init (r : ToolRegistry) (provider : Nat → List FnSchema → LLMResponse)
    (fuel i : Nat) (acc : String) (msgs : List Msg) :
    runIter r provider (fuel + 1) i acc msgs ⟨none, 0⟩
      = runIter r provider (fuel + 1) i acc msgs (stableCache r) := by
  simp only [runIter, getCachedToolSchemas_init, getCachedToolSchemas_stable]

/-- C7 (counterexample): a first reply carrying no tool-call directives and
no content ends the run after exactly 1 iteration, but the reply is not
appended and the sentinel `Error: No response generated` is returned rather
than the reply's content, refuting "the loop appends it ... returning its
content as the final answer". -/
theorem empty_final_reply_returns_sentinel :
    AgentLoop.run ToolRegistry.empty silentProvider "sys" "hi"
      = .ok ⟨"Error: No response generated", 1, [.system "sys", .user "hi"], true⟩ := rfl

/-- C7 (amended): when the reply of a reached iteration `k` carries no
tool-call directives (all earlier iterations requesting tool calls with
parseable payloads, no protocol clients registered), the loop completes at
that iteration — after exactly `k + 1` iterations, exactly 1 when it happens
on the first — appending the reply only when its content is non-empty, and
returns the last non-empty content seen (the final reply's content when that
is non-empty) or the sentinel `Error: No response generated`; when all 10
iterations of the cap request tool calls, the loop is exhausted after
exactly 10 iterations, returning the last non-empty content seen or the
sentinel. -/
theorem loop_termination_modes (r : ToolRegistry)
    (provider : Nat → List FnSchema → LLMResponse) (sys user : String)
    (hmcp : r.mcp_clients = []) :
    ((provider 0 r.get_all_tool_schemas).tool_calls = [] →
      AgentLoop.run r provider sys user = .ok
        ⟨(let c := (stepContent (provider 0 r.get_all_tool_schemas) [] "").2
          if c = "" then "Error: No response generated" else c),
         1,
         (stepContent (provider 0 r.get_all_tool_schemas) [.system sys, .user user] "").1,
         true⟩)
    ∧ (∀ k, k < 10 →
        (∀ j, j < k → (provider j r.get_all_tool_schemas).tool_calls ≠ []) →
        (∀ j, j < k → ∀ tc ∈ (provider j r.get_all_tool_schemas).tool_calls,
          ∃ a, tc.argumentsJson = .ok a) →
        (provider k r.get_all_tool_schemas).tool_calls = [] →
        ∃ msgs, AgentLoop.run r provider sys user = .ok
          ⟨(let c := contentFold provider r.get_all_tool_schemas "" 0 (k + 1)
            if c = "" then "Error: No response generated" else c),
           k + 1, msgs, true⟩)
    ∧ ((∀ j, j < 10 → (provider j r.get_all_tool_schemas).tool_calls ≠ []) →
       (∀ j, j < 10 → ∀ tc ∈ (provider j r.get_all_tool_schemas).tool_calls,
          ∃ a, tc.argumentsJson = .ok a) →
       ∃ msgs, AgentLoop.run r provider sys user = .ok
         ⟨(let c := contentFold provider r.get_all_tool_schemas "" 0 10
           if c = "" then "Error: No response generated" else c),
          10, msgs, false⟩) := by
  refine ⟨?_, ?_, ?_⟩
  · intro h
    unfold AgentLoop.run
    rw [show (10 : Nat) = 9 + 1 from rfl]
    simp only [runIter, getCachedToolSchemas_init, h, List.isEmpty_nil, if_true]
    rw [stepContent_snd_indep (provider 0 r.get_all_tool_schemas)
      [.system sys, .user user] [] ""]
  · intro k hk hc hp hstop
    obtain ⟨msgs', h'⟩ := runIter_completes r provider hmcp k 10 0 ""
      [.system sys, .user user] hk
      (fun j hj hj' => hc j (by omega))
      (fun j hj hj' => hp j (by omega))
      (by rw [Nat.zero_add]; exact hstop)
    rw [Nat.zero_add] at h'
    refine ⟨msgs', ?_⟩
    unfold AgentLoop.run
    rw [show (10 : Nat) = 9 + 1 from rfl, runIter_cache_init,
      show (9 : Nat) + 1 = 10 from rfl, h']
  · intro hc hp
    obtain ⟨msgs', h'⟩ := runIter_exhausts r provider hmcp 10 0 ""
      [.system sys, .user user]
      (fun j hj hj' => hc j (by omega))
      (fun j hj hj' => hp j (by omega))
    refine ⟨msgs', ?_⟩
    unfold AgentLoop.run
    rw [show (10 : Nat) = 9 + 1 from rfl, runIter_cache_init,
      show (9 : Nat) + 1 = 10 from rfl, h']

/-- C7 (witness): a first reply with non-empty content and no tool calls
completes the run after exactly 1 iteration with the reply appended and its
content returned. -/
theorem loop_termination_modes_witness :
    AgentLoop.run ToolRegistry.empty helloProvider "sys" "hi"
      = .ok ⟨"Hello, I can help you!", 1,
          [.system "sys", .user "hi", .assistant "Hello, I can help you!"], true⟩ :=
  (loop_termination_modes ToolRegistry.empty helloProvider "sys" "hi" rfl).1 rfl

theorem find?_eq_none_key {α : Type} (l : List (String × α)) (k : String)
    (h : l.find? (fun kv => kv.1 == k) = none) : k ∉ l.map Prod.fst := by
  intro hmem
  obtain ⟨p, hp, hpk⟩ := List.mem_map.mp hmem
  have hnp := List.find?_eq_none.mp h p hp
  simp [hpk] at hnp

theorem find?_isSome_of_key_mem {α : Type} (l : List (String × α)) (k : String)
    (h : k ∈ l.map Prod.fst) : (l.find? (fun kv => kv.1 == k)).isSome := by
  obtain ⟨p, hp, hpk⟩ := List.mem_map.mp h
  exact List.find?_isSome.mpr ⟨p, hp, by simp [hpk]⟩

theorem fateLookup_mem (st : SubagentState) (tid : String) (fate : TaskFate)
    (h : fateLookup st tid = some fate) : tid ∈ runningIds st := by
  unfold fateLookup at h
  cases hf : st.running.find? (fun kv => kv.1 == tid) with
  | none => rw [hf] at h; cases h
  | some p =>
      have hpm := List.mem_of_find?_eq_some hf
      have hpk := List.find?_some hf
      exact List.mem_map.mpr ⟨p, hpm, eq_of_beq hpk⟩

theorem fateLookup_none_of_not_running (st : SubagentState) (tid : String)
    (h : tid ∉ runningIds st) : fateLookup st tid = none := by
  cases hf : fateLookup st tid with
  | none => rfl
  | some fate => exact absurd (fateLookup_mem st tid fate hf) h

theorem runningIds_resolveTask_sublist (st : SubagentState) (x : String) :
    (runningIds (resolveTask st x)).Sublist (runningIds st) := by
  unfold resolveTask
  cases h : fateLookup st x with
  | none => exact List.Sublist.refl _
  | some fate =>
      cases fate with
      | finishes l t o oc => exact (List.filter_sublist _).map _
      | vanishes => exact (List.filter_sublist _).map _

theorem resolveTask_not_running (st : SubagentState) (tid : String) :
    tid ∉ runningIds (resolveTask st tid) := by
  unfold resolveTask
  cases h : fateLookup st tid with
  | none =>
      intro hmem
      unfold fateLookup at h
      exact find?_eq_none_key st.running tid (by
        cases hf : st.running.find? (fun kv => kv.1 == tid)
        · rfl
        · rw [hf] at h; cases h) hmem
  | some fate =>
      have hfilter : ∀ (l : List (String × TaskFate)),
          tid ∉ (l.filter (fun kv => !(kv.1 == tid))).map Prod.fst := by
        intro l hmem
        obtain ⟨p, hp, hpk⟩ := List.mem_map.mp hmem
        have := (List.mem_filter.mp hp).2
        simp [hpk] at this
      cases fate with
      | finishes l t o oc => exact hfilter _
      | vanishes => exact hfilter _

theorem find?_filter_other_key {α : Type} (l : List (String × α)) (x tid : String)
    (hne : tid ≠ x) :
    (l.filter (fun kv => !(kv.1 == x))).find? (fun kv => kv.1 == tid)
      = l.find? (fun kv => kv.1 == tid) := by
  induction l with
  | nil => rfl
  | cons hd tl ih =>
      obtain ⟨k, v⟩ := hd
      by_cases hk : k == tid
      · obtain rfl : k = tid := eq_of_beq hk
        have hx : (k == x) = false := by simp [beq_iff_eq]; exact hne
        simp [List.filter_cons, hx, List.find?_cons]
      · by_cases hx : k == x
        · simp [List.filter_cons, hx, List.find?_cons, hk, ih]
        · simp [List.filter_cons, hx, List.find?_cons, hk, ih]

theorem resolveTask_preserve_fate (st : SubagentState) (x tid : String) (hx : x ≠ tid) :
    fateLookup (resolveTask st x) tid = fateLookup st tid := by
  unfold resolveTask
  cases h : fateLookup st x with
  | none => rfl
  | some fate =>
      cases fate with
      | finishes l t o oc =>
          show ((st.running.filter _).find? _).map Prod.snd = _
          rw [find?_filter_other_key st.running x tid (Ne.symm hx)]
          rfl
      | vanishes =>
          show ((st.running.filter _).find? _).map Prod.snd = _
          rw [find?_filter_other_key st.running x tid (Ne.symm hx)]
          rfl

theorem resolveTask_get_self (st : SubagentState) (tid l t : String) (o : Origin)
    (oc : Except String (Option String))
    (h : fateLookup st tid = some (.finishes l t o oc)) :
    SubagentManager.get_result (resolveTask st tid) tid
      = some ⟨tid, some l, some t, (runSubagentOutcome oc).1, (runSubagentOutcome oc).2⟩ := by
  unfold resolveTask
  rw [h]
  show ((dictInsert st.results tid _).find? _).map Prod.snd = _
  rw [find?_dictInsert_self]
  rfl

theorem resolveTask_preserve_get (st : SubagentState) (x tid : String)
    (hx : x ≠ tid ∨ tid ∉ runningIds st) :
    SubagentManager.get_result (resolveTask st x) tid
      = SubagentManager.get_result st tid := by
  unfold resolveTask
  cases h : fateLookup st x with
  | none => rfl
  | some fate =>
      have hxt : x ≠ tid := by
        rcases hx with hx | hx
        · exact hx
        · intro he
          exact hx (he ▸ fateLookup_mem st x fate h)
      cases fate with
      | finishes l t o oc =>
          show ((dictInsert st.results x _).find? _).map Prod.snd = _
          rw [find?_dictInsert_ne st.results x tid _ (Ne.symm hxt)]
          rfl
      | vanishes => rfl

theorem resolveTask_wf (st : SubagentState) (tid : String) (hwf : resultsWF st) :
    resultsWF (resolveTask st tid) := by
  unfold resolveTask
  cases h : fateLookup st tid with
  | none => exact hwf
  | some fate =>
      cases fate with
      | finishes l t o oc =>
          intro p hp
          rcases mem_dictInsert st.results tid _ p hp with hp' | hp'
          · exact hwf p hp'
          · rw [hp']
      | vanishes => exact hwf

theorem foldl_resolve_preserve_get (ids : List String) (st : SubagentState) (tid : String)
    (h : tid ∉ runningIds st) :
    SubagentManager.get_result (ids.foldl resolveTask st) tid
      = SubagentManager.get_result st tid := by
  induction ids generalizing st with
  | nil => rfl
  | cons x rest ih =>
      rw [List.foldl_cons,
        ih (resolveTask st x) (fun hm => h ((runningIds_resolveTask_sublist st x).mem hm))]
      exact resolveTask_preserve_get st x tid (Or.inr h)

theorem foldl_resolve_records (ids : List String) (st : SubagentState) (tid l t : String)
    (o : Origin) (oc : Except String (Option String)) (hmem : tid ∈ ids)
    (hrun : fateLookup st tid = some (.finishes l t o oc)) :
    SubagentManager.get_result (ids.foldl resolveTask st) tid
      = some ⟨tid, some l, some t, (runSubagentOutcome oc).1, (runSubagentOutcome oc).2⟩ := by
  induction ids generalizing st with
  | nil => cases hmem
  | cons x rest ih =>
      rw [List.foldl_cons]
      by_cases hx : x = tid
      · subst hx
        rw [foldl_resolve_preserve_get rest _ x (resolveTask_not_running st x)]
        exact resolveTask_get_self st x l t o oc hrun
      · rcases List.mem_cons.mp hmem with rfl | hmem'
        · exact absurd rfl hx
        · exact ih (resolveTask st x) hmem'
            ((resolveTask_preserve_fate st x tid hx).symm ▸ hrun)

theorem foldl_resolve_wf (ids : List String) (st : SubagentState) (hwf : resultsWF st) :
    resultsWF (ids.foldl resolveTask st) := by
  induction ids generalizing st with
  | nil => exact hwf
  | cons x rest ih => exact ih (resolveTask st x) (resolveTask_wf st x hwf)

theorem waitIds_isEmpty_false (st : SubagentState) (task_ids : Option (List String))
    (hne : waitIds st task_ids ≠ []) : (waitIds st task_ids).isEmpty = false := by
  cases h : waitIds st task_ids with
  | nil => exact absurd h hne
  | cons x rest => rfl

theorem wait_for_eq_of_nonempty (st : SubagentState) (task_ids : Option (List String))
    (hne : waitIds st task_ids ≠ []) :
    SubagentManager.wait_for st task_ids
      = ((waitIds st task_ids).foldl resolveTask st,
         { results := (waitIds st task_ids).map (fun tid =>
             match SubagentManager.get_result
                 ((waitIds st task_ids).foldl resolveTask st) tid with
             | some rec => rec
             | none => unknownResult tid)
           summary := "Waited for " ++ toString (waitIds st task_ids).length
             ++ " subagent(s)." }) := by
  simp only [SubagentManager.wait_for, waitIds_isEmpty_false st task_ids hne,
    Bool.false_eq_true, if_false]
  rfl

theorem lookup_or_unknown_task_id (st' : SubagentState) (tid : String)
    (hwf : resultsWF st') :
    (match SubagentManager.get_result st' tid with
     | some rec => rec
     | none => unknownResult tid).task_id = tid := by
  unfold SubagentManager.get_result
  cases hf : st'.results.find? (fun kv => kv.1 == tid) with
  | none => rfl
  | some p =>
      have hpm := List.mem_of_find?_eq_some hf
      have hpk := List.find?_some hf
      exact (hwf p hpm).trans (eq_of_beq hpk)

theorem wait_for_results_map_taskIds (st : SubagentState)
    (task_ids : Option (List String)) (hwf : resultsWF st)
    (hne : waitIds st task_ids ≠ []) :
    (SubagentManager.wait_for st task_ids).2.results.map ResultRecord.task_id
      = waitIds st task_ids := by
  rw [wait_for_eq_of_nonempty st task_ids hne, List.map_map]
  refine (List.map_congr_left ?_).trans (List.map_id _)
  intro tid _
  exact lookup_or_unknown_task_id ((waitIds st task_ids).foldl resolveTask st) tid
    (foldl_resolve_wf (waitIds st task_ids) st hwf)

theorem wait_for_recorded_result (st : SubagentState) (task_ids : Option (List String))
    (tid l t : String) (o : Origin) (oc : Except String (Option String))
    (hmem : tid ∈ waitIds st task_ids)
    (hrun : fateLookup st tid = some (.finishes l t o oc))
    (hne : waitIds st task_ids ≠ []) :
    SubagentManager.get_result (SubagentManager.wait_for st task_ids).1 tid
      = some ⟨tid, some l, some t, (runSubagentOutcome oc).1, (runSubagentOutcome oc).2⟩ := by
  rw [wait_for_eq_of_nonempty st task_ids hne]
  exact foldl_resolve_records (waitIds st task_ids) st tid l t o oc hmem hrun

/-- C10: over a non-empty awaited id set, `wait_for` returns exactly one
entry per awaited id, in the awaited order (the returned records' task-id
list equals the awaited id list); an awaited task that faulted has its
exception recorded as a `status "error"` result rather than propagating out
of `wait_for`; and an awaited id with no recorded result yields the
`status "unknown"` / `Result not found after wait.` placeholder entry. -/
theorem wait_for_one_entry_per_awaited_id (st : SubagentState)
    (task_ids : Option (List String)) (hwf : resultsWF st)
    (hne : waitIds st task_ids ≠ []) :
    ((SubagentManager.wait_for st task_ids).2.results.map ResultRecord.task_id
      = waitIds st task_ids)
    ∧ (∀ tid ∈ waitIds st task_ids, ∀ l t o e,
        fateLookup st tid = some (.finishes l t o (.error e)) →
        SubagentManager.get_result (SubagentManager.wait_for st task_ids).1 tid
          = some ⟨tid, some l, some t, "Error: " ++ e, "error"⟩)
    ∧ (∀ tid ∈ waitIds st task_ids,
        SubagentManager.get_result (SubagentManager.wait_for st task_ids).1 tid = none →
        unknownResult tid ∈ (SubagentManager.wait_for st task_ids).2.results)
    ∧ (SubagentManager.wait_for st task_ids).2.summary
      = "Waited for " ++ toString (waitIds st task_ids).length ++ " subagent(s)." := by
  refine ⟨wait_for_results_map_taskIds st task_ids hwf hne, ?_, ?_, ?_⟩
  · intro tid hmem l t o e hrun
    exact wait_for_recorded_result st task_ids tid l t o (.error e) hmem hrun hne
  · intro tid hmem hnone
    rw [wait_for_eq_of_nonempty st task_ids hne] at hnone ⊢
    refine List.mem_map.mpr ⟨tid, hmem, ?_⟩
    rw [hnone]
  · rw [wait_for_eq_of_nonempty st task_ids hne]

/-- C10 (witness): with one spawned task `t1` still running, awaiting
`["t1"]` returns exactly the one entry for `t1`. -/
theorem wait_for_one_entry_per_awaited_id_witness :
    (SubagentManager.wait_for spawnedState (some ["t1"])).2.results.map
      ResultRecord.task_id = ["t1"] :=
  (wait_for_one_entry_per_awaited_id spawnedState (some ["t1"])
    (fun p hp => absurd hp (List.not_mem_nil p)) (by decide)).1

/-- C3 (counterexample): task `t1` was spawned and has already completed —
its terminal record is in the results table and its done-callback removed it
from the running table.  `wait_for` with exactly the spawned id set `["t1"]`
returns zero results and the "nothing to wait for" summary, not one recorded
result per spawned task: results of tasks that completed before the call are
dropped, refuting the claim. -/
theorem wait_for_drops_already_completed :
    (SubagentManager.wait_for completedState (some ["t1"])).2
      = ⟨[], "No running subagents to wait for."⟩
    ∧ SubagentManager.get_result completedState "t1"
      = some ⟨"t1", some "worker", some "do the thing", "done", "ok"⟩ :=
  ⟨rfl, rfl⟩

/-- C3 (amended): `wait_for` awaits the requested *still-running* subset:
with no ids it awaits exactly the currently running ids; with explicit ids
it awaits the requested ids still in the running table (unknown ids — and
ids whose task already completed, even though their result is recorded — are
dropped); over a non-empty awaited subset the returned records' task-id list
equals that subset, in request order, each still-running task contributing
its freshly recorded result; in particular, when every requested id is still
running at the call, exactly one result per requested id is returned,
regardless of completion order. -/
theorem wait_for_awaits_still_running_subset (st : SubagentState) (tids : List String)
    (hwf : resultsWF st) :
    (waitIds st none = runningIds st)
    ∧ ((∀ tid ∈ tids, tid ∈ runningIds st) → waitIds st (some tids) = tids)
    ∧ (∀ tid ∈ tids, tid ∉ runningIds st → tid ∉ waitIds st (some tids))
    ∧ (waitIds st (some tids) ≠ [] →
        (SubagentManager.wait_for st (some tids)).2.results.map ResultRecord.task_id
          = waitIds st (some tids))
    ∧ (∀ tid ∈ waitIds st (some tids), ∀ l t o oc,
        fateLookup st tid = some (.finishes l t o oc) →
        waitIds st (some tids) ≠ [] →
        SubagentManager.get_result (SubagentManager.wait_for st (some tids)).1 tid
          = some ⟨tid, some l, some t,
              (runSubagentOutcome oc).1, (runSubagentOutcome oc).2⟩) := by
  refine ⟨rfl, ?_, ?_, ?_, ?_⟩
  · intro hall
    apply List.filter_eq_self.mpr
    intro tid hmem
    exact find?_isSome_of_key_mem st.running tid (hall tid hmem)
  · intro tid _ hnot hmemw
    have hpred := (List.mem_filter.mp hmemw).2
    obtain ⟨p, hp, hpk⟩ := List.find?_isSome.mp hpred
    exact hnot (List.mem_map.mpr ⟨p, hp, eq_of_beq hpk⟩)
  · exact fun hne => wait_for_results_map_taskIds st (some tids) hwf hne
  · intro tid hmem l t o oc hrun hne
    exact wait_for_recorded_result st (some tids) tid l t o oc hmem hrun hne

/-- C3 (witness): with `t1` spawned and still running, waiting on `["t1"]`
delivers its freshly recorded terminal result from the results table. -/
theorem wait_for_awaits_still_running_subset_witness :
    SubagentManager.get_result
        (SubagentManager.wait_for spawnedState (some ["t1"])).1 "t1"
      = some ⟨"t1", some "worker", some "do the thing", "done", "ok"⟩ := by
  have h := (wait_for_awaits_still_running_subset spawnedState ["t1"]
    (fun p hp => absurd hp (List.not_mem_nil p))).2.2.2.2
  exact h "t1" (by decide) "worker" "do the thing" ⟨"cli", "direct"⟩
    (.ok (some "done")) rfl (by decide)

theorem sessionAppend_self (ss : List (String × List (String × String)))
    (key role content : String) :
    ((sessionAppend ss key role content).find? (fun kv => kv.1 == key)).map Prod.snd
      = some ((((ss.find? (fun kv => kv.1 == key)).map Prod.snd).getD [])
          ++ [(role, content)]) := by
  unfold sessionAppend
  cases h : ss.find? (fun kv => kv.1 == key) with
  | none => rw [find?_dictInsert_self]; rfl
  | some kv => rw [find?_dictInsert_self]; rfl

theorem sessionAppend_other (ss : List (String × List (String × String)))
    (key key' role content : String) (h : key' ≠ key) :
    (sessionAppend ss key role content).find? (fun kv => kv.1 == key')
      = ss.find? (fun kv => kv.1 == key') := by
  unfold sessionAppend
  cases ss.find? (fun kv => kv.1 == key) with
  | none => exact find?_dictInsert_ne ss key key' _ h
  | some kv => exact find?_dictInsert_ne ss key key' _ h

theorem resolveTask_no_op (st : SubagentState) (tid : String)
    (h : fateLookup st tid = none) : resolveTask st tid = st := by
  unfold resolveTask
  rw [h]

/-- C4: completing a spawned task performs the single terminal step of
`_run_subagent`/`_record_result`: exactly one results-table record keyed by
the task id, holding `{task_id, label, task, result, status}` with status
`ok` on natural completion (including the no-final-response sentinel) and
`error` with result `Error: {message}` on any uncaught fault; exactly one
announcement message is appended to the session named by the spawn-time
origin (all other sessions are untouched); the id then leaves the running
table, so a second terminal transition for the same id is impossible
(resolving it again is a no-op). -/
theorem subagent_single_terminal_transition (st : SubagentState) (tid l t : String)
    (o : Origin) (oc : Except String (Option String))
    (hrun : fateLookup st tid = some (.finishes l t o oc))
    (hfresh : SubagentManager.get_result st tid = none) :
    SubagentManager.get_result (resolveTask st tid) tid
      = some ⟨tid, some l, some t, (runSubagentOutcome oc).1, (runSubagentOutcome oc).2⟩
    ∧ ((resolveTask st tid).results.map Prod.fst).count tid = 1
    ∧ ((∃ c, oc = .ok c) → (runSubagentOutcome oc).2 = "ok")
    ∧ (∀ e, oc = .error e → runSubagentOutcome oc = ("Error: " ++ e, "error"))
    ∧ sessionMsgs (resolveTask st tid) o.key
      = sessionMsgs st o.key
        ++ [("system",
            announceContent l t (runSubagentOutcome oc).1 (runSubagentOutcome oc).2)]
    ∧ (∀ key, key ≠ o.key → sessionMsgs (resolveTask st tid) key = sessionMsgs st key)
    ∧ tid ∉ runningIds (resolveTask st tid)
    ∧ resolveTask (resolveTask st tid) tid = resolveTask st tid := by
  have hfind : st.results.find? (fun kv => kv.1 == tid) = none := by
    unfold SubagentManager.get_result at hfresh
    cases hf : st.results.find? (fun kv => kv.1 == tid) with
    | none => rfl
    | some p => rw [hf] at hfresh; simp at hfresh
  have hnotin : tid ∉ st.results.map Prod.fst := find?_eq_none_key st.results tid hfind
  have hstep : resolveTask st tid
      = { running := st.running.filter (fun kv => !(kv.1 == tid))
          results := dictInsert st.results tid
            ⟨tid, some l, some t, (runSubagentOutcome oc).1, (runSubagentOutcome oc).2⟩
          sessions := sessionAppend st.sessions o.key "system"
            (announceContent l t (runSubagentOutcome oc).1 (runSubagentOutcome oc).2) } := by
    unfold resolveTask
    rw [hrun]
    rfl
  refine ⟨?_, ?_, ?_, ?_, ?_, ?_, resolveTask_not_running st tid, ?_⟩
  · rw [hstep]
    show ((dictInsert st.results tid _).find? _).map Prod.snd = _
    rw [find?_dictInsert_self]
    rfl
  · rw [hstep]
    show ((dictInsert st.results tid _).map Prod.fst).count tid = 1
    rw [map_fst_dictInsert_fresh st.results tid _ hnotin, List.count_append,
      List.count_eq_zero.mpr hnotin]
    simp
  · rintro ⟨c, rfl⟩
    cases c <;> rfl
  · rintro e rfl
    rfl
  · rw [hstep]
    show (((sessionAppend st.sessions o.key _ _).find? _).map Prod.snd).getD [] = _
    rw [sessionAppend_self]
    rfl
  · intro key hk
    rw [hstep]
    show (((sessionAppend st.sessions o.key _ _).find? _).map Prod.snd).getD [] = _
    rw [sessionAppend_other st.sessions o.key key _ _ hk]
    rfl
  · exact resolveTask_no_op _ tid
      (fateLookup_none_of_not_running _ tid (resolveTask_not_running st tid))

/-- C4 (witness): completing spawned task `t1` records its result and
appends exactly the one announcement message to the `cli:direct` session. -/
theorem subagent_single_terminal_transition_witness :
    sessionMsgs completedState "cli:direct"
      = [("system", announceContent "worker" "do the thing" "done" "ok")]
    ∧ (completedState.results.map Prod.fst).count "t1" = 1 := by
  have h := subagent_single_terminal_transition spawnedState "t1" "worker"
    "do the thing" ⟨"cli", "direct"⟩ (.ok (some "done")) rfl rfl
  exact ⟨h.2.2.2.2.1, h.2.1⟩

/-- C8: dispatch-time validation aggregates: whenever a registered tool's
validator reports any violations, `execute` returns the single aggregated
error string listing all of them (semicolon-joined) — independent of the
executor, which is never invoked; the modelled validator collects *all*
violations (missing required field and wrong type together), reports nested
missing required fields under their dotted path (`missing required
config.key`), and covers enum and numeric-bound violations. -/
theorem validation_aggregates_all_violations :
    (∀ (r : ToolRegistry) (name : String) (t : Tool) (args : Args),
      r.get name = some t → t.validate_params args ≠ [] →
        r.execute name args
          = "Error: Invalid parameters for tool '" ++ name ++ "': "
            ++ String.intercalate "; " (t.validate_params args))
    ∧ nestedTool.validate_params [("config", .obj [])] = ["missing required config.key"]
    ∧ mockTool.validate_params [("count", .s "nan")]
        = ["missing required input", "count should be integer"]
    ∧ enumTool.validate_params [("mode", .s "invalid")]
        = ["mode must be one of " ++ String.intercalate ", " ["read", "write", "delete"]]
    ∧ mockTool.validate_params [("input", .s "ok"), ("count", .i 200)]
        = ["count must be <= " ++ toString (100 : Int)] := by
  refine ⟨?_, ?_, ?_, ?_, ?_⟩
  · intro r name t args h hv
    simp [ToolRegistry.execute, h, hv]
  · simp [nestedTool, Tool.validate_params, validateValue, lookupField, joinPath]
  · simp [mockTool, Tool.validate_params, validateValue, lookupField, joinPath]
  · simp [enumTool, Tool.validate_params, validateValue, lookupField, joinPath]
  · simp [mockTool, Tool.validate_params, validateValue, lookupField, joinPath]

/-- C8 (witness): dispatching the nested tool with the nested required field
missing returns the aggregated dotted-path error and never reaches the
executor. -/
theorem validation_aggregates_all_violations_witness :
    demoRegistry.execute "nested_tool" [("config", JVal.obj [])]
      = "Error: Invalid parameters for tool 'nested_tool': missing required config.key" := by
  have hmain := validation_aggregates_all_violations
  have h := hmain.1 demoRegistry "nested_tool" nestedTool [("config", JVal.obj [])]
    rfl (by rw [hmain.2.1]; simp)
  rw [h, hmain.2.1]
  rfl

end LightAgent
